import Mathlib

/-
Verification of the one-dimensional glacier flowline engine described by the
tutorial notebooks of this repository.  The notebooks only call into the
engine (RectangularBedFlowline, LinearMassBalance, FluxBasedModel with its
run_until and run_until_equilibrium drivers); the engine itself is not part
of the repository source, so the definitions below are modelled from the
specification (spec.md sections 3 and 4), using exact rational arithmetic in
place of floating point.  Field and method names follow the names used at
the call sites in the notebooks.
-/

/-- Modelled from the spec: the Geometry Profile (RectangularBedFlowline is
not under src/; only its construction sites are).  Grid-point data are total
functions on indices, of which only the first nx indices are meaningful:
bed elevations (immutable), surface elevations (the evolving state), channel
widths in grid units (the notebooks pass physical width divided by map_dx),
and the uniform grid spacing map_dx in meters. -/
structure Flowline where
  nx : ℕ
  bed_h : ℕ → ℚ
  surface_h : ℕ → ℚ
  widths : ℕ → ℚ
  map_dx : ℚ

/-- Modelled from the spec: ice thickness is surface elevation minus bed
elevation.  The time step stores surface heights clamped to the bed, so on
every reachable state this quantity is non-negative; it is deliberately not
floored here so that non-negativity is a provable invariant of the stepping
scheme rather than a definitional triviality. -/
def Flowline.thick (fl : Flowline) (i : ℕ) : ℚ :=
  fl.surface_h i - fl.bed_h i

/-- Modelled from the spec: glacier length is the distance along the grid
from the glacier head (grid point 0) to the last grid point with positive
thickness, and zero when no grid point has ice. -/
def Flowline.length_m (fl : Flowline) : ℚ :=
  ((List.range fl.nx).filter (fun i => decide (0 < fl.thick i))).foldr
    (fun i a => max ((i : ℚ) * fl.map_dx) a) 0

/-- Modelled from the spec: total area in square meters, the sum of physical
width (grid-unit width times spacing) times spacing over the grid points
with positive thickness. -/
def Flowline.area_m2 (fl : Flowline) : ℚ :=
  ∑ i in Finset.range fl.nx,
    (if 0 < fl.thick i then fl.widths i * fl.map_dx * fl.map_dx else 0)

/-- Modelled from the spec: total volume in cubic meters, the sum of
thickness times physical width times spacing over the grid points with
positive thickness. -/
def Flowline.volume_m3 (fl : Flowline) : ℚ :=
  ∑ i in Finset.range fl.nx,
    (if 0 < fl.thick i then fl.thick i * fl.widths i * fl.map_dx * fl.map_dx else 0)

/-- Modelled from the spec: the linear Mass-Balance Model, defined by an
equilibrium line altitude ela_h (meters) and a gradient grad (millimeters of
water equivalent per meter of elevation per year).  It is immutable and
carries no glacier state. -/
structure LinearMassBalance where
  ela_h : ℚ
  grad : ℚ

/-- Modelled from the spec: the positive constant converting the product
gradient times elevation difference (millimeters per year) into the
flow-law-compatible ice-thickness rate (meters of ice per year). -/
def mmPerYearToIceRate : ℚ := 1 / 1000

/-- Modelled from the spec: the mass-balance rate at a given surface
elevation, equal to gradient times (elevation minus ELA) converted to an
ice-thickness rate.  A pure function of elevation: no cap is configured at
any call site in the notebooks, so no clipping is applied. -/
def LinearMassBalance.get_annual_mb (mb : LinearMassBalance) (h : ℚ) : ℚ :=
  mb.grad * (h - mb.ela_h) * mmPerYearToIceRate

/-- Modelled from the spec: the Simulation Clock / Model State of the
FluxBasedModel: the owned Geometry Profile, the active mass-balance model,
the current simulation year, the deformation coefficient glen_a, the sliding
coefficient fs, the minimum allowed timestep min_dt (years) and the CFL
safety factor cfl_number. -/
structure FlowlineModel where
  fls : Flowline
  mb_model : LinearMassBalance
  yr : ℚ
  glen_a : ℚ
  fs : ℚ
  min_dt : ℚ
  cfl_number : ℚ

/-- Modelled from the spec: surface slope at the internal boundary between
grid cells k and k plus one: elevation difference divided by spacing. -/
def FlowlineModel.slope (m : FlowlineModel) (k : ℕ) : ℚ :=
  (m.fls.surface_h (k + 1) - m.fls.surface_h k) / m.fls.map_dx

/-- Modelled from the spec: ice thickness at an internal boundary, the
average of the two adjacent cell thicknesses. -/
def FlowlineModel.hEdge (m : FlowlineModel) (k : ℕ) : ℚ :=
  (m.fls.thick k + m.fls.thick (k + 1)) / 2

/-- Modelled from the spec: physical channel width at an internal boundary,
the average of the two adjacent grid-unit widths times the spacing. -/
def FlowlineModel.wEdge (m : FlowlineModel) (k : ℕ) : ℚ :=
  (m.fls.widths k + m.fls.widths (k + 1)) / 2 * m.fls.map_dx

/-- Modelled from the spec: local diffusivity at an internal boundary.  The
deformation part scales with thickness to the fifth power times the
deformation coefficient, the sliding part with thickness squared times the
sliding coefficient, both times slope squared, so that flux equals
diffusivity times slope gives the cubic dependence on slope of Glen type
flow plus sliding. -/
def FlowlineModel.diffusivity (m : FlowlineModel) (k : ℕ) : ℚ :=
  (m.glen_a * m.hEdge k ^ 5 + m.fs * m.hEdge k ^ 2) * m.slope k ^ 2

/-- Modelled from the spec: signed ice flux (volume per unit time) across
the internal boundary between cells k and k plus one; downslope transport is
positive, and the value is zero at the two domain boundaries. -/
def FlowlineModel.fluxB (m : FlowlineModel) (k : ℕ) : ℚ :=
  if k + 1 < m.fls.nx then -(m.diffusivity k) * m.slope k * m.wEdge k else 0

/-- Modelled from the spec: flux entering cell j from above; zero at the
glacier head. -/
def FlowlineModel.flux_in (m : FlowlineModel) : ℕ → ℚ
  | 0 => 0
  | k + 1 => m.fluxB k

/-- Modelled from the spec: flux divergence across the two boundaries of
cell j, namely flux out minus flux in divided by physical width times
spacing, giving a thickness rate. -/
def FlowlineModel.divergence (m : FlowlineModel) (j : ℕ) : ℚ :=
  (m.fluxB j - m.flux_in j) / (m.fls.widths j * m.fls.map_dx * m.fls.map_dx)

/-- Modelled from the spec: the maximum diffusivity over the internal
boundaries, used by the stability condition; zero for an empty fold (for
example a zero-thickness glacier). -/
def FlowlineModel.maxDiffusivity (m : FlowlineModel) : ℚ :=
  (List.range (m.fls.nx - 1)).foldr (fun k a => max (m.diffusivity k) a) 0

/-- Modelled from the spec: the CFL-type candidate timestep, grid spacing
squared over twice the maximum diffusivity, scaled by the safety factor. -/
def FlowlineModel.cfl_dt (m : FlowlineModel) : ℚ :=
  m.cfl_number * m.fls.map_dx ^ 2 / (2 * m.maxDiffusivity)

/-- Modelled from the spec: timestep selection.  When the maximum
diffusivity is positive the CFL candidate applies, floored from below by the
configured minimum allowed timestep; when diffusivity vanishes the floor
alone determines the step. -/
def FlowlineModel.select_dt (m : FlowlineModel) : ℚ :=
  if 0 < m.maxDiffusivity then max m.min_dt m.cfl_dt else m.min_dt

/-- Modelled from the spec: one explicit mass-conservation update over a
timestep dt.  Each cell gains dt times (mass-balance forcing minus flux
divergence); any negative resulting thickness is clamped to zero, surface
heights are stored as bed plus the clamped thickness, and the clock advances
by dt.  Bed, widths and all physical parameters are unchanged. -/
def FlowlineModel.applyStep (m : FlowlineModel) (dt : ℚ) : FlowlineModel :=
  { m with
    fls := { m.fls with
      surface_h := fun j =>
        m.fls.bed_h j +
          max 0 (m.fls.thick j +
            dt * (m.mb_model.get_annual_mb (m.fls.surface_h j) - m.divergence j)) }
    yr := m.yr + dt }

/-- Modelled from the spec: a single controller step toward a target year:
the selected timestep is clipped so the clock never passes the target. -/
def FlowlineModel.stepTo (m : FlowlineModel) (y : ℚ) : FlowlineModel :=
  m.applyStep (min m.select_dt (y - m.yr))

/-- Modelled from the spec: fuelled iteration of clipped controller steps;
iteration stops as soon as the clock has reached or passed the target. -/
def FlowlineModel.runSteps : ℕ → FlowlineModel → ℚ → FlowlineModel
  | 0, m, _ => m
  | n + 1, m, y => if y ≤ m.yr then m else FlowlineModel.runSteps n (m.stepTo y) y

/-- Modelled from the spec: a step count sufficient to reach the target,
computed from the minimum timestep floor. -/
def FlowlineModel.fuelFor (m : FlowlineModel) (y : ℚ) : ℕ :=
  (⌈(y - m.yr) / m.min_dt⌉).toNat + 1

/-- Modelled from the spec: the Run-To-Target driver.  A target at or before
the current clock is detected immediately and the state is returned
unchanged; otherwise clipped controller steps are iterated until the clock
lands exactly on the target. -/
def FlowlineModel.run_until (m : FlowlineModel) (y : ℚ) : FlowlineModel :=
  if y ≤ m.yr then m else FlowlineModel.runSteps (m.fuelFor y) m y

/-- Modelled from the spec: a sequence of run_until calls, as issued by the
notebook loops over arrays of target years. -/
def FlowlineModel.runSchedule (m : FlowlineModel) (ys : List ℚ) : FlowlineModel :=
  ys.foldl (fun acc y => acc.run_until y) m

/-- Modelled from the spec: glacier length reported by the model. -/
def FlowlineModel.length_m (m : FlowlineModel) : ℚ := m.fls.length_m

/-- Modelled from the spec: glacier area reported by the model, in square
kilometers. -/
def FlowlineModel.area_km2 (m : FlowlineModel) : ℚ := m.fls.area_m2 / 1000000

/-- Modelled from the spec: glacier volume reported by the model, in cubic
kilometers. -/
def FlowlineModel.volume_km3 (m : FlowlineModel) : ℚ := m.fls.volume_m3 / 1000000000

/-- Modelled from the spec: glacier volume in cubic meters, the quantity
whose relative change drives the equilibrium test. -/
def FlowlineModel.volume_m3 (m : FlowlineModel) : ℚ := m.fls.volume_m3

/-- Modelled from the spec: one equilibrium probe, a bounded advance of the
model by ystep years. -/
def FlowlineModel.probe (m : FlowlineModel) (ystep : ℚ) : FlowlineModel :=
  m.run_until (m.yr + ystep)

/-- Modelled from the spec: the n-fold composition of equilibrium probes,
the best-effort state after n increments with no early convergence exit. -/
def FlowlineModel.probeIter : ℕ → FlowlineModel → ℚ → FlowlineModel
  | 0, m, _ => m
  | n + 1, m, ystep => FlowlineModel.probeIter n (m.probe ystep) ystep

/-- Modelled from the spec: the equilibrium loop.  Each round advances by
ystep and compares volumes; when the volume change falls below the rate
threshold times the new volume the loop returns the state with flag true
(converged), and when the probe budget runs out it returns the best-effort
state with flag false (the non-fatal warning). -/
def FlowlineModel.equilLoop : ℕ → FlowlineModel → ℚ → ℚ → FlowlineModel × Bool
  | 0, m, _, _ => (m, false)
  | n + 1, m, rate, ystep =>
      if |(m.probe ystep).volume_m3 - m.volume_m3| < rate * (m.probe ystep).volume_m3
      then (m.probe ystep, true)
      else FlowlineModel.equilLoop n (m.probe ystep) rate ystep

/-- Modelled from the spec: the Equilibrium Driver (run_until_equilibrium is
not under src/; only its call sites are).  It always returns a state
together with a convergence flag; exhausting max_ite probes is surfaced as
flag false, never as an exception. -/
def FlowlineModel.run_until_equilibrium (m : FlowlineModel) (rate ystep : ℚ)
    (max_ite : ℕ) : FlowlineModel × Bool :=
  FlowlineModel.equilLoop max_ite m rate ystep

/-- A concrete two-point model used to instantiate the theorems about the
drivers: zero-thickness surface on a sloping bed, zero gradient, unit
spacing and a unit minimum timestep. -/
def testModel : FlowlineModel where
  fls :=
    { nx := 2
      bed_h := fun i => 1 - (i : ℚ)
      surface_h := fun i => 1 - (i : ℚ)
      widths := fun _ => 3
      map_dx := 1 }
  mb_model := { ela_h := 0, grad := 0 }
  yr := 0
  glen_a := 1
  fs := 0
  min_dt := 1
  cfl_number := 1 / 2

/-- A concrete two-point model carrying ice of unit thickness, whose maximum
diffusivity is positive; used to instantiate the timestep-selection
theorem. -/
def thickTestModel : FlowlineModel where
  fls :=
    { nx := 2
      bed_h := fun i => 1 - (i : ℚ)
      surface_h := fun i => 2 - (i : ℚ)
      widths := fun _ => 1
      map_dx := 1 }
  mb_model := { ela_h := 0, grad := 0 }
  yr := 0
  glen_a := 1
  fs := 0
  min_dt := 1 / 1000
  cfl_number := 1 / 2

/-- A concrete mass-balance model with the ELA and gradient used in the
first notebook. -/
def testMB : LinearMassBalance where
  ela_h := 3000
  grad := 4

theorem FlowlineModel.select_dt_ge (m : FlowlineModel) : m.min_dt ≤ m.select_dt := by
  unfold FlowlineModel.select_dt
  split
  · exact le_max_left _ _
  · exact le_refl _

theorem FlowlineModel.stepTo_yr (m : FlowlineModel) (y : ℚ) :
    (m.stepTo y).yr = m.yr + min m.select_dt (y - m.yr) := rfl

theorem FlowlineModel.stepTo_min_dt (m : FlowlineModel) (y : ℚ) :
    (m.stepTo y).min_dt = m.min_dt := rfl

theorem FlowlineModel.stepTo_bed (m : FlowlineModel) (y : ℚ) :
    (m.stepTo y).fls.bed_h = m.fls.bed_h := rfl

theorem FlowlineModel.runSteps_min_dt (n : ℕ) :
    ∀ (m : FlowlineModel) (y : ℚ), (FlowlineModel.runSteps n m y).min_dt = m.min_dt := by
  induction n with
  | zero => intro m y; rfl
  | succ n ih =>
      intro m y
      by_cases h : y ≤ m.yr
      · simp [FlowlineModel.runSteps, h]
      · simp only [FlowlineModel.runSteps, if_neg h]
        rw [ih, FlowlineModel.stepTo_min_dt]

theorem FlowlineModel.runSteps_yr (n : ℕ) :
    ∀ (m : FlowlineModel) (y : ℚ), 0 < m.min_dt → y - m.yr ≤ (n : ℚ) * m.min_dt →
      (FlowlineModel.runSteps n m y).yr = max m.yr y := by
  induction n with
  | zero =>
      intro m y hmd hf
      have hy : y ≤ m.yr := by push_cast at hf; linarith
      simp [FlowlineModel.runSteps, max_eq_left hy]
  | succ n ih =>
      intro m y hmd hf
      by_cases hy : y ≤ m.yr
      · simp [FlowlineModel.runSteps, hy, max_eq_left hy]
      · push_neg at hy
        simp only [FlowlineModel.runSteps, if_neg (not_le.mpr hy)]
        have hs : m.min_dt ≤ m.select_dt := m.select_dt_ge
        by_cases hc : y - m.yr ≤ m.select_dt
        · have hyr : (m.stepTo y).yr = y := by
            rw [FlowlineModel.stepTo_yr, min_eq_right hc]; ring
          have hrec := ih (m.stepTo y) y
            (by rw [FlowlineModel.stepTo_min_dt]; exact hmd)
            (by
              rw [hyr, FlowlineModel.stepTo_min_dt]
              have : (0 : ℚ) ≤ (n : ℚ) * m.min_dt := by positivity
              linarith)
          rw [hrec, hyr, max_self, max_eq_right hy.le]
        · push_neg at hc
          have hyr : (m.stepTo y).yr = m.yr + m.select_dt := by
            rw [FlowlineModel.stepTo_yr, min_eq_left hc.le]
          have hrec := ih (m.stepTo y) y
            (by rw [FlowlineModel.stepTo_min_dt]; exact hmd)
            (by
              rw [hyr, FlowlineModel.stepTo_min_dt]
              push_cast at hf ⊢
              linarith)
          rw [hrec, hyr]
          rw [max_eq_right (by linarith), max_eq_right hy.le]

theorem FlowlineModel.fuelFor_spec (m : FlowlineModel) (y : ℚ) (hmd : 0 < m.min_dt) :
    y - m.yr ≤ ((m.fuelFor y : ℕ) : ℚ) * m.min_dt := by
  set q : ℚ := (y - m.yr) / m.min_dt with hq
  have h1 : q ≤ (⌈q⌉ : ℚ) := Int.le_ceil q
  have h2 : ((⌈q⌉ : ℤ) : ℚ) ≤ ((⌈q⌉.toNat : ℕ) : ℚ) := by
    exact_mod_cast Int.self_le_toNat ⌈q⌉
  have h3 : ((m.fuelFor y : ℕ) : ℚ) = ((⌈q⌉.toNat : ℕ) : ℚ) + 1 := by
    unfold FlowlineModel.fuelFor
    push_cast
    rw [hq]
  have h4 : q ≤ ((m.fuelFor y : ℕ) : ℚ) := by
    rw [h3]; linarith
  have h5 : y - m.yr = q * m.min_dt := by
    rw [hq]; field_simp
  rw [h5]
  exact mul_le_mul_of_nonneg_right h4 hmd.le

theorem FlowlineModel.run_until_yr (m : FlowlineModel) (y : ℚ) (hmd : 0 < m.min_dt) :
    (m.run_until y).yr = max m.yr y := by
  unfold FlowlineModel.run_until
  by_cases h : y ≤ m.yr
  · rw [if_pos h, max_eq_left h]
  · rw [if_neg h]
    exact FlowlineModel.runSteps_yr (m.fuelFor y) m y hmd (m.fuelFor_spec y hmd)

theorem FlowlineModel.run_until_min_dt (m : FlowlineModel) (y : ℚ) :
    (m.run_until y).min_dt = m.min_dt := by
  unfold FlowlineModel.run_until
  split
  · rfl
  · exact FlowlineModel.runSteps_min_dt _ m y

theorem FlowlineModel.stepTo_above_bed (m : FlowlineModel) (y : ℚ) (i : ℕ) :
    (m.stepTo y).fls.bed_h i ≤ (m.stepTo y).fls.surface_h i := by
  show m.fls.bed_h i ≤ m.fls.bed_h i + max 0 _
  exact le_add_of_nonneg_right (le_max_left 0 _)

theorem FlowlineModel.runSteps_above_bed (n : ℕ) :
    ∀ (m : FlowlineModel) (y : ℚ),
      (∀ i, m.fls.bed_h i ≤ m.fls.surface_h i) →
      ∀ i, (FlowlineModel.runSteps n m y).fls.bed_h i ≤
        (FlowlineModel.runSteps n m y).fls.surface_h i := by
  induction n with
  | zero => intro m y h0 i; exact h0 i
  | succ n ih =>
      intro m y h0 i
      by_cases h : y ≤ m.yr
      · simpa [FlowlineModel.runSteps, h] using h0 i
      · simp only [FlowlineModel.runSteps, if_neg h]
        exact ih (m.stepTo y) y (fun j => m.stepTo_above_bed y j) i

theorem FlowlineModel.run_until_noop (m : FlowlineModel) (y : ℚ) (h : y ≤ m.yr) :
    m.run_until y = m := by
  unfold FlowlineModel.run_until
  rw [if_pos h]

theorem FlowlineModel.runSchedule_cons (m : FlowlineModel) (y : ℚ) (ys : List ℚ) :
    m.runSchedule (y :: ys) = (m.run_until y).runSchedule ys := rfl

theorem FlowlineModel.runSchedule_yr_mono (ys : List ℚ) :
    ∀ m : FlowlineModel, 0 < m.min_dt → m.yr ≤ (m.runSchedule ys).yr := by
  induction ys with
  | nil => intro m _; exact le_refl _
  | cons y ys ih =>
      intro m hmd
      rw [FlowlineModel.runSchedule_cons]
      have h1 : m.yr ≤ (m.run_until y).yr := by
        rw [FlowlineModel.run_until_yr m y hmd]
        exact le_max_left _ _
      exact le_trans h1
        (ih (m.run_until y) (by rw [FlowlineModel.run_until_min_dt]; exact hmd))

theorem FlowlineModel.probeIter_succ (n : ℕ) (m : FlowlineModel) (ystep : ℚ) :
    FlowlineModel.probeIter (n + 1) m ystep =
      FlowlineModel.probeIter n (m.probe ystep) ystep := rfl

/-- C1: for every model and every sequence of run_until calls, the reported
simulation year is non-decreasing across the calls, and calling run_until
with a target at or before the current clock value is a no-op that returns
the whole state (year, length, area, volume, surface heights) unchanged. -/
theorem run_until_monotone_no_time_travel (m : FlowlineModel) (ys : List ℚ) (y2 : ℚ)
    (hmd : 0 < m.min_dt) :
    m.yr ≤ (m.runSchedule ys).yr ∧ (y2 ≤ m.yr → m.run_until y2 = m) :=
  ⟨FlowlineModel.runSchedule_yr_mono ys m hmd, fun h => m.run_until_noop y2 h⟩

/-- Closed instance of C1 at a concrete model: the later year is kept and a
past-year request returns the state unchanged. -/
theorem run_until_monotone_no_time_travel_witness :
    0 < testModel.min_dt ∧
      (testModel.yr ≤ (testModel.runSchedule [2]).yr ∧
        ((0 : ℚ) ≤ testModel.yr → testModel.run_until 0 = testModel)) :=
  ⟨by decide, run_until_monotone_no_time_travel testModel [2] 0 (by decide)⟩

/-- C2: calling run_until twice in a row with the same target yields the
identical state on both calls — the second call short-circuits, and the
reported length, area and volume agree exactly between the two calls. -/
theorem run_until_idempotent (m : FlowlineModel) (y : ℚ) (hmd : 0 < m.min_dt) :
    (m.run_until y).run_until y = m.run_until y ∧
    ((m.run_until y).run_until y).length_m = (m.run_until y).length_m ∧
    ((m.run_until y).run_until y).area_km2 = (m.run_until y).area_km2 ∧
    ((m.run_until y).run_until y).volume_km3 = (m.run_until y).volume_km3 := by
  have hy : y ≤ (m.run_until y).yr := by
    rw [FlowlineModel.run_until_yr m y hmd]
    exact le_max_right _ _
  have he := (m.run_until y).run_until_noop y hy
  exact ⟨he, by rw [he], by rw [he], by rw [he]⟩

/-- Closed instance of C2 at a concrete model and target year 2. -/
theorem run_until_idempotent_witness :
    0 < testModel.min_dt ∧
      (testModel.run_until 2).run_until 2 = testModel.run_until 2 :=
  ⟨by decide, (run_until_idempotent testModel 2 (by decide)).1⟩

/-- C3: starting from a state whose surface is at or above the bed, the
surface stays at or above the bed at every grid point for every simulated
year, so the reported thickness is never negative; moreover a single
controller step preserves non-negative thickness unconditionally because
negative excursions are clamped during the update. -/
theorem thickness_nonneg (m : FlowlineModel) (y : ℚ)
    (h0 : ∀ i, m.fls.bed_h i ≤ m.fls.surface_h i) :
    (∀ i, 0 ≤ (m.run_until y).fls.thick i) ∧ (∀ i, 0 ≤ (m.stepTo y).fls.thick i) := by
  constructor
  · intro i
    have hb : (m.run_until y).fls.bed_h i ≤ (m.run_until y).fls.surface_h i := by
      unfold FlowlineModel.run_until
      split
      · exact h0 i
      · exact FlowlineModel.runSteps_above_bed _ m y h0 i
    exact sub_nonneg.mpr hb
  · intro i
    exact sub_nonneg.mpr (m.stepTo_above_bed y i)

/-- Closed instance of C3: thickness stays non-negative after running the
concrete zero-ice model to year 2, and after a single step. -/
theorem thickness_nonneg_witness :
    0 ≤ (testModel.run_until 2).fls.thick 0 ∧ 0 ≤ (testModel.stepTo 2).fls.thick 1 :=
  ⟨(thickness_nonneg testModel 2 (fun _ => le_refl _)).1 0,
   (thickness_nonneg testModel 2 (fun _ => le_refl _)).2 1⟩

/-- C4: for a mass-balance model with positive gradient, the returned rate
equals gradient times (elevation minus ELA) converted by the fixed positive
factor, is exactly zero at the ELA, strictly positive above it, strictly
negative below it, and monotone in elevation; it is a pure function of the
elevation argument alone. -/
theorem get_annual_mb_linear (mb : LinearMassBalance) (hg : 0 < mb.grad) (h1 h2 : ℚ) :
    mb.get_annual_mb mb.ela_h = 0 ∧
    mb.get_annual_mb h1 = mb.grad * (h1 - mb.ela_h) * mmPerYearToIceRate ∧
    (mb.ela_h < h1 → 0 < mb.get_annual_mb h1) ∧
    (h1 < mb.ela_h → mb.get_annual_mb h1 < 0) ∧
    (h1 ≤ h2 → mb.get_annual_mb h1 ≤ mb.get_annual_mb h2) := by
  unfold LinearMassBalance.get_annual_mb mmPerYearToIceRate
  refine ⟨by ring, rfl, ?_, ?_, ?_⟩
  · intro hlt
    nlinarith [mul_pos hg (sub_pos.mpr hlt)]
  · intro hlt
    nlinarith [mul_pos hg (sub_pos.mpr hlt)]
  · intro hle
    nlinarith [mul_le_mul_of_nonneg_left (sub_le_sub_right hle mb.ela_h) hg.le]

/-- Closed instance of C4 at the notebook parameters (ELA 3000, gradient 4):
the rate at the ELA is zero. -/
theorem get_annual_mb_linear_witness :
    0 < testMB.grad ∧ testMB.get_annual_mb testMB.ela_h = 0 :=
  ⟨by decide, (get_annual_mb_linear testMB (by decide) 3100 3200).1⟩

/-- C5: for a target year strictly beyond the current clock, run_until
iterates clipped controller steps and lands the clock exactly on the target,
never overshooting, and reports state exactly at that year. -/
theorem run_until_reaches_target (m : FlowlineModel) (y : ℚ)
    (hmd : 0 < m.min_dt) (hy : m.yr < y) : (m.run_until y).yr = y := by
  rw [FlowlineModel.run_until_yr m y hmd, max_eq_right hy.le]

/-- Closed instance of C5: the concrete model run from year 0 to year 2
reports exactly year 2. -/
theorem run_until_reaches_target_witness :
    0 < testModel.min_dt ∧ testModel.yr < 2 ∧ (testModel.run_until 2).yr = 2 :=
  ⟨by decide, by decide, run_until_reaches_target testModel 2 (by decide) (by decide)⟩

/-- C6: the equilibrium driver always returns a state together with a flag
and never fails: when the flag signals convergence the last increment
changed the volume by less than the threshold fraction, and when the probe
budget is exhausted the flag signals the non-fatal warning and the returned
state is exactly the best-effort state after all budgeted increments. -/
theorem run_until_equilibrium_total (m : FlowlineModel) (rate ystep : ℚ) (max_ite : ℕ) :
    ((m.run_until_equilibrium rate ystep max_ite).2 = true →
      ∃ mp : FlowlineModel,
        (m.run_until_equilibrium rate ystep max_ite).1 = mp.probe ystep ∧
        |(mp.probe ystep).volume_m3 - mp.volume_m3| < rate * (mp.probe ystep).volume_m3) ∧
    ((m.run_until_equilibrium rate ystep max_ite).2 = false →
      (m.run_until_equilibrium rate ystep max_ite).1 =
        FlowlineModel.probeIter max_ite m ystep) := by
  unfold FlowlineModel.run_until_equilibrium
  induction max_ite generalizing m with
  | zero =>
      refine ⟨fun h => ?_, fun _ => rfl⟩
      simp [FlowlineModel.equilLoop] at h
  | succ n ih =>
      simp only [FlowlineModel.equilLoop]
      by_cases hc : |(m.probe ystep).volume_m3 - m.volume_m3| <
          rate * (m.probe ystep).volume_m3
      · rw [if_pos hc]
        refine ⟨fun _ => ⟨m, rfl, hc⟩, fun h => ?_⟩
        simp at h
      · rw [if_neg hc]
        refine ⟨fun h => (ih (m.probe ystep)).1 h, fun h => ?_⟩
        rw [(ih (m.probe ystep)).2 h, FlowlineModel.probeIter_succ]

/-- C8: with a positive configured floor and a safety factor strictly less
than one, the selected timestep is always at least the floor (hence
positive), reduces to the floor exactly when the diffusivity vanishes, and
whenever the diffusivity is positive and the floor does not exceed the
scaled CFL candidate, the selected timestep is at most the CFL candidate and
strictly below the theoretical bound of grid spacing squared over twice the
maximum diffusivity. -/
theorem select_dt_bounds (m : FlowlineModel) (hmd : 0 < m.min_dt)
    (hcfl : m.cfl_number < 1) :
    m.min_dt ≤ m.select_dt ∧
    0 < m.select_dt ∧
    (m.maxDiffusivity = 0 → m.select_dt = m.min_dt) ∧
    (0 < m.maxDiffusivity → m.min_dt ≤ m.cfl_dt → m.select_dt ≤ m.cfl_dt) ∧
    (0 < m.maxDiffusivity → m.min_dt ≤ m.cfl_dt → 0 < m.fls.map_dx →
      m.select_dt < m.fls.map_dx ^ 2 / (2 * m.maxDiffusivity)) := by
  refine ⟨m.select_dt_ge, lt_of_lt_of_le hmd m.select_dt_ge, ?_, ?_, ?_⟩
  · intro h0
    unfold FlowlineModel.select_dt
    rw [if_neg (by rw [h0]; exact lt_irrefl 0)]
  · intro hD hle
    unfold FlowlineModel.select_dt
    rw [if_pos hD]
    exact max_le hle le_rfl
  · intro hD hle hdx
    have hsel : m.select_dt ≤ m.cfl_dt := by
      unfold FlowlineModel.select_dt
      rw [if_pos hD]
      exact max_le hle le_rfl
    have hX : 0 < m.fls.map_dx ^ 2 / (2 * m.maxDiffusivity) := by positivity
    have hrw : m.cfl_dt = m.cfl_number * (m.fls.map_dx ^ 2 / (2 * m.maxDiffusivity)) := by
      unfold FlowlineModel.cfl_dt
      ring
    have hlt : m.cfl_dt < m.fls.map_dx ^ 2 / (2 * m.maxDiffusivity) := by
      rw [hrw]
      nlinarith
    exact lt_of_le_of_lt hsel hlt

/-- Closed instance of C8 at a concrete model with positive diffusivity: the
selected timestep sits between the floor and the CFL candidate. -/
theorem select_dt_bounds_witness :
    0 < thickTestModel.min_dt ∧ thickTestModel.cfl_number < 1 ∧
      thickTestModel.min_dt ≤ thickTestModel.select_dt ∧ 0 < thickTestModel.select_dt :=
  ⟨by norm_num [thickTestModel], by norm_num [thickTestModel],
   (select_dt_bounds thickTestModel (by norm_num [thickTestModel])
      (by norm_num [thickTestModel])).1,
   (select_dt_bounds thickTestModel (by norm_num [thickTestModel])
      (by norm_num [thickTestModel])).2.1⟩

/-- C10: widths are interpreted in grid units.  When the caller passes each
physical width w divided by the grid spacing, as every notebook does, the
reported area is the sum of w times spacing over the ice-covered grid points
and the reported volume is the sum of thickness times w times spacing. -/
theorem widths_grid_units (n : ℕ) (bed surf w : ℕ → ℚ) (dx : ℚ) (hdx : 0 < dx) :
    (Flowline.mk n bed surf (fun i => w i / dx) dx).area_m2 =
      ∑ i in Finset.range n, (if 0 < surf i - bed i then w i * dx else 0) ∧
    (Flowline.mk n bed surf (fun i => w i / dx) dx).volume_m3 =
      ∑ i in Finset.range n,
        (if 0 < surf i - bed i then (surf i - bed i) * (w i * dx) else 0) := by
  have hdx0 : dx ≠ 0 := ne_of_gt hdx
  constructor
  · unfold Flowline.area_m2
    apply Finset.sum_congr rfl
    intro i _
    simp only [Flowline.thick]
    split
    · field_simp
    · rfl
  · unfold Flowline.volume_m3
    apply Finset.sum_congr rfl
    intro i _
    simp only [Flowline.thick]
    split
    · field_simp
      ring
    · rfl

/-- Closed instance of C10: one ice-covered grid point of physical width 300
meters at spacing 100 meters, passed as 3 grid units, reports an area of
300 times 100 square meters. -/
theorem widths_grid_units_witness :
    (Flowline.mk 1 (fun _ => (0 : ℚ)) (fun _ => (1 : ℚ))
      (fun _ => (300 : ℚ) / 100) 100).area_m2 = 30000 := by
  have h := (widths_grid_units 1 (fun _ => (0 : ℚ)) (fun _ => (1 : ℚ))
    (fun _ => (300 : ℚ)) 100 (by norm_num)).1
  have h2 : (∑ i in Finset.range 1,
      (if 0 < (fun _ => (1 : ℚ)) i - (fun _ => (0 : ℚ)) i
       then (fun _ => (300 : ℚ)) i * 100 else 0)) = 30000 := by
    norm_num [Finset.sum_range_one]
  exact h.trans h2
